import Mathlib

/-!
Verification of the Opplafy Tenant Manager controller (src/controller.py).

The controller is embedded shallowly: every call to an external collaborator
(Keyrock identity provider, Umbrella gateway, Mongo persistence store) is a
field of an `Env` oracle returning `Except Exc α`, where `Exc` mirrors the
Python exception classes the handlers catch.  Each handler is a function from
the oracle and the request data to an HTTP response paired with the trace of
external calls it performed, each trace entry recording the call and whether
the oracle raised on it.
-/

namespace Opplafy

/-- Configuration constants read from settings.py (role and application
identifiers, provided through the environment). -/
structure Settings where
  BROKER_APP_ID : String
  BAE_APP_ID : String
  BROKER_ADMIN_ROLE : String
  BROKER_CONSUMER_ROLE : String
  BAE_SELLER_ROLE : String
  BAE_CUSTOMER_ROLE : String
  BAE_ADMIN_ROLE : String
deriving DecidableEq

/-- Exception kinds observable in the handlers: `KeyrockError`,
`UmbrellaError`, and any other Python exception. -/
inductive Exc where
  | keyrock (msg : String)
  | umbrella (msg : String)
  | other (msg : String)
deriving DecidableEq

/-- One required header inside an access-policy settings object. -/
structure RequiredHeader where
  key : String
  value : String
deriving DecidableEq

/-- The settings object of an Umbrella access policy. -/
structure PolicySettings where
  required_headers : List RequiredHeader
  required_roles : List String
  required_roles_override : Bool
deriving DecidableEq

/-- An Umbrella access policy, as built by `_build_policy`. -/
structure Policy where
  http_method : String
  regex : String
  settings : PolicySettings
deriving DecidableEq

/-- A tenant record as persisted by `save_tenant` and returned by the
database controller. -/
structure TenantRecord where
  tenant_id : String
  name : String
  description : String
  user_id : String
  tenant_organization : String
deriving DecidableEq

/-- An organization member as returned by Keyrock. -/
structure Member where
  user_id : String
  name : String
  role : String
deriving DecidableEq

/-- A member entry of the enriched tenant object returned by the GET
handlers. -/
structure MemberOut where
  id : String
  name : String
  roles : List String
deriving DecidableEq

/-- A tenant record enriched with its organization members. -/
structure EnrichedTenant where
  record : TenantRecord
  users : List MemberOut
deriving DecidableEq

/-- A user entry of a creation request body; both keys may be absent. -/
structure ReqUser where
  name : Option String
  roles : Option (List String)
deriving DecidableEq

/-- A JSON body of a POST /tenant request; every key may be absent. -/
structure TenantRequest where
  name : Option String
  description : Option String
  users : Option (List ReqUser)
deriving DecidableEq

/-- The authenticated caller identity injected by the `authorized`
decorator. -/
structure UserInfo where
  id : String
deriving DecidableEq

/-- Response bodies produced by the handlers. -/
inductive Body where
  | empty
  | jsonError (msg : String)
  | jsonTenant (t : EnrichedTenant)
  | jsonTenants (ts : List EnrichedTenant)
deriving DecidableEq

/-- An HTTP response: status code and body. -/
structure HttpResponse where
  status : Nat
  body : Body
deriving DecidableEq

/-- The external calls a handler can perform, one constructor per
collaborator method used by the controller. -/
inductive EffectCall where
  | get_tenant (tenant_id : String)
  | read_tenants (owner_id : String)
  | save_tenant (tenant_id : String) (name : String) (description : String)
      (user_id : String) (org_id : String)
  | create_organization (name : String) (description : String) (owner_id : String)
  | authorize_organization (org_id : String) (app_id : String)
      (role1 : String) (role2 : String)
  | authorize_organization_role (org_id : String) (app_id : String)
      (role : String) (org_role : String)
  | get_user_id (name : String)
  | grant_organization_role (org_id : String) (user_id : String) (role : String)
  | get_organization_members (org_id : String)
  | add_sub_url_setting_app_id (app_id : String) (policies : List Policy)
deriving DecidableEq

/-- A trace entry: the call performed and the exception it raised, if any. -/
structure TraceEntry where
  call : EffectCall
  err : Option Exc
deriving DecidableEq

/-- The oracle describing the behaviour of the three external systems during
one request: each collaborator method either returns a value or raises. -/
structure Env where
  get_tenant : String → Except Exc (Option TenantRecord)
  read_tenants : String → Except Exc (List TenantRecord)
  save_tenant : String → String → String → String → String → Except Exc Unit
  create_organization : String → String → String → Except Exc String
  authorize_organization : String → String → String → String → Except Exc Unit
  authorize_organization_role : String → String → String → String → Except Exc Unit
  get_user_id : String → Except Exc String
  grant_organization_role : String → String → String → Except Exc Unit
  get_organization_members : String → Except Exc (List Member)
  add_sub_url_setting_app_id : String → List Policy → Except Exc Unit

deriving instance DecidableEq for Except

/-- Exception raised by a collaborator result, if any. -/
def errOf {α : Type} : Except Exc α → Option Exc
  | .ok _ => none
  | .error e => some e

/-- Embedding of `_build_policy`. -/
def _build_policy (method : String) (tenant : String) (role : String) : Policy :=
  { http_method := method
    regex := "^/"
    settings :=
      { required_headers := [{ key := "Fiware-Service", value := tenant }]
        required_roles := [role]
        required_roles_override := true } }

/-- Embedding of `_map_roles`. -/
def _map_roles (s : Settings) (member : Member) : List String :=
  let roles := [s.BROKER_CONSUMER_ROLE]
  if member.role = "owner" then roles ++ [s.BROKER_ADMIN_ROLE] else roles

/-- Embedding of `_create_access_policies`: builds the read and admin
policies and appends them to the broker application in one Umbrella call. -/
def _create_access_policies (s : Settings) (env : Env) (tenant : String)
    (org_id : String) (tr : List TraceEntry) :
    Except Exc Unit × List TraceEntry :=
  let read_role := org_id ++ "." ++ s.BROKER_CONSUMER_ROLE
  let read_policy := _build_policy "GET" tenant read_role
  let admin_role := org_id ++ "." ++ s.BROKER_ADMIN_ROLE
  let admin_policy := _build_policy "any" tenant admin_role
  let r := env.add_sub_url_setting_app_id s.BROKER_APP_ID [read_policy, admin_policy]
  (r, tr ++ [⟨.add_sub_url_setting_app_id s.BROKER_APP_ID
      [read_policy, admin_policy], errOf r⟩])

/-- Embedding of the two `if` statements of the user loop body that grant an
organization role to one resolved user. -/
def grant_single (s : Settings) (env : Env) (org_id : String) (user_id : String)
    (uroles : List String) (tr : List TraceEntry) :
    Except Exc Unit × List TraceEntry :=
  let step1 : Except Exc Unit × List TraceEntry :=
    if uroles.contains s.BROKER_CONSUMER_ROLE && !(uroles.contains s.BROKER_ADMIN_ROLE) then
      let r := env.grant_organization_role org_id user_id "member"
      (r, tr ++ [⟨.grant_organization_role org_id user_id "member", errOf r⟩])
    else (.ok (), tr)
  match step1 with
  | (.error e, tr1) => (.error e, tr1)
  | (.ok _, tr1) =>
    if uroles.contains s.BROKER_ADMIN_ROLE then
      let r := env.grant_organization_role org_id user_id "owner"
      (r, tr1 ++ [⟨.grant_organization_role org_id user_id "owner", errOf r⟩])
    else (.ok (), tr1)

/-- Embedding of the user loop of `create`: resolves each listed user by
name and grants organization roles; a missing key raises a `KeyError`
(an unclassified exception). -/
def grant_users (s : Settings) (env : Env) (org_id : String) :
    List ReqUser → List TraceEntry → Except Exc Unit × List TraceEntry
  | [], tr => (.ok (), tr)
  | user :: rest, tr =>
    match user.name, user.roles with
    | some uname, some uroles =>
      let rid := env.get_user_id uname
      let tr1 := tr ++ [⟨.get_user_id uname, errOf rid⟩]
      match rid with
      | .error e => (.error e, tr1)
      | .ok user_id =>
        match grant_single s env org_id user_id uroles tr1 with
        | (.error e, tr2) => (.error e, tr2)
        | (.ok _, tr2) => grant_users s env org_id rest tr2
    | _, _ => (.error (.other "KeyError"), tr)

/-- Tenant identifier derivation, embedding `name.lower().replace(' ', '_')`:
every character of the name is lower-cased and every space character
becomes an underscore (the replaced pattern is the single space
character, so the replacement is character-wise). -/
def tenant_id_of (name : String) : String :=
  ⟨(name.data.map Char.toLower).map (fun c => if c = ' ' then '_' else c)⟩

/-- Validation of the `users` list: each entry must carry both keys. -/
def users_valid : List ReqUser → Bool
  | [] => true
  | u :: rest => u.name.isSome && u.roles.isSome && users_valid rest

/-- Validation of the optional `users` field of the request body. -/
def users_field_valid : Option (List ReqUser) → Bool
  | none => true
  | some us => users_valid us

/-- Outcome of the `try` block of `create`: the early conflict return, a
normal completion, or a raised exception. -/
inductive CreateOutcome where
  | conflict (tenant_id : String)
  | success
  | raised (e : Exc)
deriving DecidableEq

/-- Tail of the `try` block of `create` after the user loop: create the two
access policies, then persist the tenant record. -/
def create_post_users (s : Settings) (env : Env) (user_info : UserInfo)
    (name : String) (description : String) (tenant_id : String) (org_id : String)
    (tr : List TraceEntry) : CreateOutcome × List TraceEntry :=
  match _create_access_policies s env tenant_id org_id tr with
  | (.error e, tr1) => (.raised e, tr1)
  | (.ok _, tr1) =>
    let rs := env.save_tenant tenant_id name description user_info.id org_id
    let tr2 := tr1 ++ [⟨.save_tenant tenant_id name description user_info.id org_id,
        errOf rs⟩]
    match rs with
    | .error e => (.raised e, tr2)
    | .ok _ => (.success, tr2)

/-- The user-loop stage of the `try` block of `create` followed by its
tail: grants roles to the listed users when a `users` field was sent, then
creates the access policies and persists the record. -/
def create_users_step (s : Settings) (env : Env) (user_info : UserInfo)
    (name : String) (description : String) (org_id : String)
    (users : Option (List ReqUser)) (tr : List TraceEntry) :
    CreateOutcome × List TraceEntry :=
  match users with
  | none =>
    create_post_users s env user_info name description (tenant_id_of name) org_id tr
  | some us =>
    match grant_users s env org_id us tr with
    | (.error e, tr6) => (.raised e, tr6)
    | (.ok _, tr6) =>
      create_post_users s env user_info name description (tenant_id_of name) org_id tr6

/-- Embedding of the `try` block of `create`: duplicate check, organization
creation, role authorizations, user role grants, access policies, and the
final save, aborting at the first raised exception. -/
def create_try (s : Settings) (env : Env) (user_info : UserInfo)
    (name : String) (description : String) (users : Option (List ReqUser)) :
    CreateOutcome × List TraceEntry :=
  let tenant_id := tenant_id_of name
  let rt := env.get_tenant tenant_id
  let tr0 := [⟨.get_tenant tenant_id, errOf rt⟩]
  match rt with
  | .error e => (.raised e, tr0)
  | .ok (some _) => (.conflict tenant_id, tr0)
  | .ok none =>
    let ro := env.create_organization name description user_info.id
    let tr1 := tr0 ++ [⟨.create_organization name description user_info.id, errOf ro⟩]
    match ro with
    | .error e => (.raised e, tr1)
    | .ok org_id =>
      let ra := env.authorize_organization org_id s.BROKER_APP_ID
          s.BROKER_ADMIN_ROLE s.BROKER_CONSUMER_ROLE
      let tr2 := tr1 ++ [⟨.authorize_organization org_id s.BROKER_APP_ID
          s.BROKER_ADMIN_ROLE s.BROKER_CONSUMER_ROLE, errOf ra⟩]
      match ra with
      | .error e => (.raised e, tr2)
      | .ok _ =>
        let rb1 := env.authorize_organization_role org_id s.BAE_APP_ID
            s.BAE_SELLER_ROLE "owner"
        let tr3 := tr2 ++ [⟨.authorize_organization_role org_id s.BAE_APP_ID
            s.BAE_SELLER_ROLE "owner", errOf rb1⟩]
        match rb1 with
        | .error e => (.raised e, tr3)
        | .ok _ =>
          let rb2 := env.authorize_organization_role org_id s.BAE_APP_ID
              s.BAE_CUSTOMER_ROLE "owner"
          let tr4 := tr3 ++ [⟨.authorize_organization_role org_id s.BAE_APP_ID
              s.BAE_CUSTOMER_ROLE "owner", errOf rb2⟩]
          match rb2 with
          | .error e => (.raised e, tr4)
          | .ok _ =>
            let rb3 := env.authorize_organization_role org_id s.BAE_APP_ID
                s.BAE_ADMIN_ROLE "owner"
            let tr5 := tr4 ++ [⟨.authorize_organization_role org_id s.BAE_APP_ID
                s.BAE_ADMIN_ROLE "owner", errOf rb3⟩]
            match rb3 with
            | .error e => (.raised e, tr5)
            | .ok _ =>
              create_users_step s env user_info name description org_id users tr5

/-- Embedding of the POST /tenant handler `create`: field validation, then
the `try` block, then the `except` clauses translating the outcome into an
HTTP response. -/
def create (s : Settings) (env : Env) (req : TenantRequest)
    (user_info : UserInfo) : HttpResponse × List TraceEntry :=
  match req.name with
  | none => (⟨422, .jsonError "Missing required field name"⟩, [])
  | some name =>
    match req.description with
    | none => (⟨422, .jsonError "Missing required field description"⟩, [])
    | some description =>
      if !(users_field_valid req.users) then
        (⟨422, .jsonError "Missing required field in user specification"⟩, [])
      else
        match create_try s env user_info name description req.users with
        | (.conflict tenant_id, tr) =>
          (⟨409, .jsonError ("The tenant " ++ tenant_id ++ " is already registered")⟩, tr)
        | (.raised (.keyrock m), tr) => (⟨400, .jsonError m⟩, tr)
        | (.raised (.umbrella m), tr) => (⟨400, .jsonError m⟩, tr)
        | (.raised (.other _), tr) =>
          (⟨500, .jsonError "Unexpected error creating tenant"⟩, tr)
        | (.success, tr) => (⟨201, .empty⟩, tr)

/-- Enriched member list built by the GET handlers from Keyrock members. -/
def enrich_members (s : Settings) (members : List Member) : List MemberOut :=
  members.map (fun m => ⟨m.user_id, m.name, _map_roles s m⟩)

/-- Embedding of the GET /tenant/{id} handler `get_tenant`. -/
def get_tenant (s : Settings) (env : Env) (user_info : UserInfo)
    (tenant_id : String) : HttpResponse × List TraceEntry :=
  let rt := env.get_tenant tenant_id
  let tr0 := [⟨.get_tenant tenant_id, errOf rt⟩]
  match rt with
  | .error _ => (⟨500, .jsonError "An error occurred reading tenants"⟩, tr0)
  | .ok none =>
    (⟨404, .jsonError ("Tenant " ++ tenant_id ++ " does not exist")⟩, tr0)
  | .ok (some tenant_info) =>
    if tenant_info.user_id != user_info.id then
      (⟨403, .jsonError "You are not authorized to retrieve tenant info"⟩, tr0)
    else
      let rm := env.get_organization_members tenant_info.tenant_organization
      let tr1 := tr0 ++ [⟨.get_organization_members tenant_info.tenant_organization,
          errOf rm⟩]
      match rm with
      | .error _ => (⟨500, .jsonError "An error occurred reading tenants"⟩, tr1)
      | .ok members =>
        (⟨200, .jsonTenant ⟨tenant_info, enrich_members s members⟩⟩, tr1)

/-- The enrichment loop of the GET /tenant handler: loads the members of
each tenant organization in order, aborting at the first raised exception. -/
def enrich_tenants (s : Settings) (env : Env) :
    List TenantRecord → List TraceEntry →
    Except Exc (List EnrichedTenant) × List TraceEntry
  | [], tr => (.ok [], tr)
  | t :: rest, tr =>
    let rm := env.get_organization_members t.tenant_organization
    let tr1 := tr ++ [⟨.get_organization_members t.tenant_organization, errOf rm⟩]
    match rm with
    | .error e => (.error e, tr1)
    | .ok members =>
      match enrich_tenants s env rest tr1 with
      | (.error e, tr2) => (.error e, tr2)
      | (.ok rest2, tr2) => (.ok (⟨t, enrich_members s members⟩ :: rest2), tr2)

/-- Embedding of the GET /tenant handler `get`. -/
def get (s : Settings) (env : Env) (user_info : UserInfo) :
    HttpResponse × List TraceEntry :=
  let rl := env.read_tenants user_info.id
  let tr0 := [⟨.read_tenants user_info.id, errOf rl⟩]
  match rl with
  | .error _ => (⟨500, .jsonError "An error occurred reading tenants"⟩, tr0)
  | .ok tenants =>
    match enrich_tenants s env tenants tr0 with
    | (.error _, tr1) => (⟨500, .jsonError "An error occurred reading tenants"⟩, tr1)
    | (.ok enriched, tr1) => (⟨200, .jsonTenants enriched⟩, tr1)

/-- Modelled from the spec: `DatabaseController.read_tenants` is not under
src/; per the external-interface section the persistence client lists tenant
records keyed by owner id, and the listing endpoint must return all tenants
owned by the caller.  The store is modelled as a list of records and the
listing as the filter keeping the records whose owner is the given user. -/
def read_tenants_model (store : List TenantRecord) (owner_id : String) :
    List TenantRecord :=
  store.filter (fun t => t.user_id == owner_id)

/-- Whether a call is the persistence write `save_tenant`. -/
def is_save : EffectCall → Bool
  | .save_tenant _ _ _ _ _ => true
  | _ => false

/-- Whether a call is the Umbrella access-policy write. -/
def is_policy_call : EffectCall → Bool
  | .add_sub_url_setting_app_id _ _ => true
  | _ => false

/-- Whether a call belongs to the per-user part of the creation workflow. -/
def is_user_call : EffectCall → Bool
  | .get_user_id _ => true
  | .grant_organization_role _ _ _ => true
  | _ => false

/-- Whether every `save_tenant` entry of a trace is its final entry. -/
def saves_are_last : List TraceEntry → Bool
  | [] => true
  | e :: rest => (if is_save e.call then rest.isEmpty else true) && saves_are_last rest

/-- The tenant identifiers referenced by a call: the id of the duplicate
check, the id of the persisted record, and the Fiware-Service header values
of the submitted access policies. -/
def tenant_ids_of : EffectCall → List String
  | .get_tenant tid => [tid]
  | .save_tenant tid _ _ _ _ => [tid]
  | .add_sub_url_setting_app_id _ policies =>
      policies.flatMap (fun p => p.settings.required_headers.filterMap
        (fun h => if h.key == "Fiware-Service" then some h.value else none))
  | _ => []

/-- The organization role grants of a trace, in order, as pairs of the
granted user id and the granted role. -/
def grants_in : List TraceEntry → List (String × String)
  | [] => []
  | e :: rest =>
    match e.call with
    | .grant_organization_role _ uid role => (uid, role) :: grants_in rest
    | _ => grants_in rest

/-- The user names resolved through `get_user_id` in a trace, in order. -/
def user_lookups_in : List TraceEntry → List String
  | [] => []
  | e :: rest =>
    match e.call with
    | .get_user_id n => n :: user_lookups_in rest
    | _ => user_lookups_in rest

/-- The organization role grants the specification prescribes for one listed
user: the owner role when the admin role was requested, the member role when
only the consumer role was requested, and nothing otherwise; the granted
user id is the one the identity provider resolves for the listed name. -/
def expected_grants (s : Settings) (env : Env) (u : ReqUser) :
    List (String × String) :=
  match u.name, u.roles with
  | some uname, some uroles =>
    match env.get_user_id uname with
    | .ok uid =>
      if uroles.contains s.BROKER_ADMIN_ROLE then [(uid, "owner")]
      else if uroles.contains s.BROKER_CONSUMER_ROLE then [(uid, "member")]
      else []
    | .error _ => []
  | _, _ => []

/-- Concrete settings used by the witnesses. -/
def s0 : Settings :=
  ⟨"broker-app", "bae-app", "admin-role", "consumer-role",
   "seller", "customer", "bae-admin"⟩

/-- A concrete stored tenant record used by the witnesses. -/
def recA : TenantRecord := ⟨"acme_corp", "Acme Corp", "d", "owner1", "org1"⟩

/-- A concrete stored tenant record owned by another user. -/
def recB : TenantRecord := ⟨"beta", "Beta", "d2", "owner2", "org2"⟩

/-- An oracle on which every collaborator call succeeds and no tenant is
registered yet. -/
def envOk : Env :=
  { get_tenant := fun _ => .ok none
    read_tenants := fun _ => .ok []
    save_tenant := fun _ _ _ _ _ => .ok ()
    create_organization := fun _ _ _ => .ok "org1"
    authorize_organization := fun _ _ _ _ => .ok ()
    authorize_organization_role := fun _ _ _ _ => .ok ()
    get_user_id := fun n => .ok ("id-" ++ n)
    grant_organization_role := fun _ _ _ => .ok ()
    get_organization_members := fun _ => .ok [⟨"u1", "alice", "owner"⟩]
    add_sub_url_setting_app_id := fun _ _ => .ok () }

/-- An oracle on which the tenant `acme_corp` is already registered. -/
def envDup : Env := { envOk with get_tenant := fun tid =>
    if tid == "acme_corp" then .ok (some recA) else .ok none }

/-- An oracle on which organization creation raises a `KeyrockError`. -/
def envKeyrockFail : Env :=
  { envOk with create_organization := fun _ _ _ => .error (.keyrock "boom") }

/-- An oracle whose store holds `recA` and `recB` and behaves as the
modelled database. -/
def envStore : Env :=
  { envOk with
    get_tenant := fun tid => .ok (([recA, recB].filter
      (fun t => t.tenant_id == tid)).head?)
    read_tenants := fun uid => .ok (read_tenants_model [recA, recB] uid) }

/-- The caller identity used by the witnesses. -/
def u0 : UserInfo := ⟨"owner1"⟩

/-- A valid creation request without users. -/
def req0 : TenantRequest := ⟨some "Acme Corp", some "d", none⟩

/-- A user-loop call is not the persistence write. -/
theorem is_user_call_not_save {c : EffectCall} (h : is_user_call c = true) :
    is_save c = false := by
  cases c <;> simp [is_user_call, is_save] at h ⊢

/-- A user-loop call is not the access-policy write. -/
theorem is_user_call_not_policy {c : EffectCall} (h : is_user_call c = true) :
    is_policy_call c = false := by
  cases c <;> simp [is_user_call, is_policy_call] at h ⊢

/-- A user-loop call references no tenant identifier. -/
theorem is_user_call_tenant_ids {c : EffectCall} (h : is_user_call c = true) :
    tenant_ids_of c = [] := by
  cases c <;> simp [is_user_call, tenant_ids_of] at h ⊢

/-- The grant projection distributes over trace concatenation. -/
theorem grants_in_append (a b : List TraceEntry) :
    grants_in (a ++ b) = grants_in a ++ grants_in b := by
  induction a with
  | nil => simp [grants_in]
  | cons e rest ih => cases hc : e.call <;> simp [grants_in, hc, ih]

/-- The lookup projection distributes over trace concatenation. -/
theorem user_lookups_in_append (a b : List TraceEntry) :
    user_lookups_in (a ++ b) = user_lookups_in a ++ user_lookups_in b := by
  induction a with
  | nil => simp [user_lookups_in]
  | cons e rest ih => cases hc : e.call <;> simp [user_lookups_in, hc, ih]

/-- A trace without persistence writes trivially keeps them last. -/
theorem saves_are_last_of_no_save {l : List TraceEntry}
    (h : ∀ e ∈ l, is_save e.call = false) :
    saves_are_last l = true := by
  induction l with
  | nil => rfl
  | cons e rest ih =>
    simp [saves_are_last, h e (by simp), ih (fun x hx => h x (by simp [hx]))]

/-- Appending one entry to a trace without persistence writes keeps every
persistence write last. -/
theorem saves_are_last_append_last (l : List TraceEntry) (x : TraceEntry)
    (h : ∀ e ∈ l, is_save e.call = false) :
    saves_are_last (l ++ [x]) = true := by
  induction l with
  | nil =>
    simp only [List.nil_append, saves_are_last, List.isEmpty_nil]
    cases hx : is_save x.call <;> simp
  | cons e rest ih =>
    simp [saves_are_last, h e (by simp),
      ih (fun y hy => h y (by simp [hy]))]

/-- Characterization of `grant_single`: it only appends user-loop entries,
a failed appended call determines its raised exception, and on normal
completion it performs exactly the grant prescribed by the requested
roles. -/
theorem grant_single_spec (s : Settings) (env : Env) (org_id user_id : String)
    (uroles : List String) (tr : List TraceEntry) :
    ∃ new, (grant_single s env org_id user_id uroles tr).2 = tr ++ new
      ∧ (∀ e ∈ new, is_user_call e.call = true)
      ∧ (∀ e ∈ new, ∀ exc, e.err = some exc →
          (grant_single s env org_id user_id uroles tr).1 = .error exc)
      ∧ ((grant_single s env org_id user_id uroles tr).1 = .ok () →
          (∀ e ∈ new, e.err = none)
          ∧ grants_in new =
              (if uroles.contains s.BROKER_ADMIN_ROLE then [(user_id, "owner")]
               else if uroles.contains s.BROKER_CONSUMER_ROLE then [(user_id, "member")]
               else [])
          ∧ user_lookups_in new = []) := by
  by_cases hadm : s.BROKER_ADMIN_ROLE ∈ uroles
  · cases hr : env.grant_organization_role org_id user_id "owner" with
    | ok v =>
      refine ⟨[⟨.grant_organization_role org_id user_id "owner", none⟩], ?_, ?_, ?_, ?_⟩
      · simp [grant_single, hadm, hr, errOf]
      · simp [is_user_call]
      · simp
      · intro _
        exact ⟨by simp, by simp [grants_in, hadm], by simp [user_lookups_in]⟩
    | error e =>
      refine ⟨[⟨.grant_organization_role org_id user_id "owner", some e⟩], ?_, ?_, ?_, ?_⟩
      · simp [grant_single, hadm, hr, errOf]
      · simp [is_user_call]
      · intro x hx exc hxe
        simp only [List.mem_singleton] at hx
        subst hx
        simp only [Option.some.injEq] at hxe
        subst hxe
        simp [grant_single, hadm, hr, errOf]
      · intro hok
        exfalso
        simp [grant_single, hadm, hr] at hok
  · by_cases hcons : s.BROKER_CONSUMER_ROLE ∈ uroles
    · cases hr : env.grant_organization_role org_id user_id "member" with
      | ok v =>
        refine ⟨[⟨.grant_organization_role org_id user_id "member", none⟩], ?_, ?_, ?_, ?_⟩
        · simp [grant_single, hadm, hcons, hr, errOf]
        · simp [is_user_call]
        · simp
        · intro _
          exact ⟨by simp, by simp [grants_in, hadm, hcons], by simp [user_lookups_in]⟩
      | error e =>
        refine ⟨[⟨.grant_organization_role org_id user_id "member", some e⟩], ?_, ?_, ?_, ?_⟩
        · simp [grant_single, hadm, hcons, hr, errOf]
        · simp [is_user_call]
        · intro x hx exc hxe
          simp only [List.mem_singleton] at hx
          subst hx
          simp only [Option.some.injEq] at hxe
          subst hxe
          simp [grant_single, hadm, hcons, hr, errOf]
        · intro hok
          exfalso
          simp [grant_single, hadm, hcons, hr] at hok
    · refine ⟨[], by simp [grant_single, hadm, hcons], by simp, by simp, ?_⟩
      intro _
      exact ⟨by simp, by simp [grants_in, hadm, hcons], by simp [user_lookups_in]⟩

/-- Characterization of the user loop `grant_users`: it only appends
user-loop entries, a failed appended call determines the exception the loop
raises, and when it completes normally every appended call succeeded, the
grants performed are exactly those the specification prescribes per listed
user, and every listed user name was resolved. -/
theorem grant_users_spec (s : Settings) (env : Env) (org_id : String)
    (users : List ReqUser) : ∀ tr : List TraceEntry,
    ∃ new, (grant_users s env org_id users tr).2 = tr ++ new
      ∧ (∀ e ∈ new, is_user_call e.call = true)
      ∧ (∀ e ∈ new, ∀ exc, e.err = some exc →
          (grant_users s env org_id users tr).1 = .error exc)
      ∧ ((grant_users s env org_id users tr).1 = .ok () →
          (∀ e ∈ new, e.err = none)
          ∧ grants_in new = users.flatMap (expected_grants s env)
          ∧ user_lookups_in new = users.filterMap (fun u => u.name)) := by
  induction users with
  | nil =>
    intro tr
    exact ⟨[], by simp [grant_users], by simp, by simp,
      fun _ => ⟨by simp, by simp [grants_in], by simp [user_lookups_in]⟩⟩
  | cons u rest ih =>
    intro tr
    cases hn : u.name with
    | none =>
      refine ⟨[], by simp [grant_users, hn], by simp, by simp, ?_⟩
      intro hok
      exfalso
      simp [grant_users, hn] at hok
    | some uname =>
      cases hr : u.roles with
      | none =>
        refine ⟨[], by simp [grant_users, hn, hr], by simp, by simp, ?_⟩
        intro hok
        exfalso
        simp [grant_users, hn, hr] at hok
      | some uroles =>
        cases hid : env.get_user_id uname with
        | error e =>
          refine ⟨[⟨.get_user_id uname, some e⟩], ?_, ?_, ?_, ?_⟩
          · simp [grant_users, hn, hr, hid, errOf]
          · simp [is_user_call]
          · intro x hx exc hxe
            simp only [List.mem_singleton] at hx
            subst hx
            simp only [Option.some.injEq] at hxe
            subst hxe
            simp [grant_users, hn, hr, hid, errOf]
          · intro hok
            exfalso
            simp [grant_users, hn, hr, hid] at hok
        | ok uid =>
          obtain ⟨new1, hgs2, hgsu, hgs4, hgsok⟩ :=
            grant_single_spec s env org_id uid uroles
              (tr ++ [⟨.get_user_id uname, none⟩])
          rcases hpair : grant_single s env org_id uid uroles
              (tr ++ [⟨.get_user_id uname, none⟩]) with ⟨res1, tr2⟩
          rw [hpair] at hgs2 hgs4 hgsok
          simp only at hgs2 hgs4 hgsok
          subst hgs2
          cases res1 with
          | error e =>
            refine ⟨⟨.get_user_id uname, none⟩ :: new1, ?_, ?_, ?_, ?_⟩
            · simp [grant_users, hn, hr, hid, errOf, hpair]
            · intro x hx
              rcases List.mem_cons.mp hx with h1 | h2
              · simp [h1, is_user_call]
              · exact hgsu x h2
            · intro x hx exc hxe
              rcases List.mem_cons.mp hx with h1 | h2
              · exfalso
                rw [h1] at hxe
                simp at hxe
              · have hee := hgs4 x h2 exc hxe
                simp only [Except.error.injEq] at hee
                subst hee
                simp [grant_users, hn, hr, hid, errOf, hpair]
            · intro hok
              exfalso
              simp [grant_users, hn, hr, hid, errOf, hpair] at hok
          | ok v =>
            obtain ⟨new2, h2a, h2b, h2d, h2c⟩ :=
              ih (tr ++ [⟨.get_user_id uname, none⟩] ++ new1)
            have hres : (grant_users s env org_id (u :: rest) tr).1 =
                (grant_users s env org_id rest
                  (tr ++ [⟨.get_user_id uname, none⟩] ++ new1)).1 := by
              simp [grant_users, hn, hr, hid, errOf, hpair]
            refine ⟨⟨.get_user_id uname, none⟩ :: (new1 ++ new2), ?_, ?_, ?_, ?_⟩
            · have htr : (grant_users s env org_id (u :: rest) tr).2 =
                  (grant_users s env org_id rest
                    (tr ++ [⟨.get_user_id uname, none⟩] ++ new1)).2 := by
                simp [grant_users, hn, hr, hid, errOf, hpair]
              rw [htr, h2a]
              simp
            · intro x hx
              rcases List.mem_cons.mp hx with h1 | h2
              · simp [h1, is_user_call]
              · rcases List.mem_append.mp h2 with h3 | h4
                · exact hgsu x h3
                · exact h2b x h4
            · intro x hx exc hxe
              rcases List.mem_cons.mp hx with h1 | h2
              · exfalso
                rw [h1] at hxe
                simp at hxe
              · rcases List.mem_append.mp h2 with h3 | h4
                · exfalso
                  have hee := hgs4 x h3 exc hxe
                  simp at hee
                · rw [hres]
                  exact h2d x h4 exc hxe
            · intro hok
              have hok2 : (grant_users s env org_id rest
                  (tr ++ [⟨.get_user_id uname, none⟩] ++ new1)).1 = .ok () := by
                rw [hres] at hok
                exact hok
              cases v
              obtain ⟨he1, hg1, hl1⟩ := hgsok rfl
              obtain ⟨he2, hg2, hl2⟩ := h2c hok2
              refine ⟨?_, ?_, ?_⟩
              · intro x hx
                rcases List.mem_cons.mp hx with h1 | h2
                · simp [h1]
                · rcases List.mem_append.mp h2 with h3 | h4
                  · exact he1 x h3
                  · exact he2 x h4
              · simp [grants_in, grants_in_append, hg1, hg2,
                  expected_grants, hn, hr, hid]
              · simp [user_lookups_in, user_lookups_in_append, hl1, hl2, hn]

/-- A pointwise false predicate makes `List.any` false. -/
theorem any_eq_false_of_forall {α : Type} {l : List α} {p : α → Bool}
    (h : ∀ e ∈ l, p e = false) : l.any p = false := by
  induction l with
  | nil => rfl
  | cons e rest ih =>
    simp [List.any_cons, h e (by simp), ih (fun x hx => h x (by simp [hx]))]

/-- A pointwise true predicate makes `List.all` true. -/
theorem all_eq_true_of_forall {α : Type} {l : List α} {p : α → Bool}
    (h : ∀ e ∈ l, p e = true) : l.all p = true := by
  induction l with
  | nil => rfl
  | cons e rest ih =>
    simp [List.all_cons, h e (by simp), ih (fun x hx => h x (by simp [hx]))]

/-- The grants the specification prescribes for an optional users field. -/
def expected_grants_opt (s : Settings) (env : Env) :
    Option (List ReqUser) → List (String × String)
  | none => []
  | some us => us.flatMap (expected_grants s env)

/-- The user-name lookups prescribed for an optional users field. -/
def expected_lookups_opt : Option (List ReqUser) → List String
  | none => []
  | some us => us.filterMap (fun u => u.name)

/-- Bundle of trace properties of the creation try block: every referenced
tenant identifier is the normalized name; a persistence write happens
exactly when every other call completed without raising and the
access-policy call completed; persistence writes come last; a raised entry
determines the raised outcome; and a normal completion performed exactly
the prescribed grants and lookups. -/
def TrySpec (s : Settings) (env : Env) (name : String)
    (users : Option (List ReqUser)) (out : CreateOutcome)
    (tr : List TraceEntry) : Prop :=
  (∀ e ∈ tr, ((tenant_ids_of e.call).all (fun t => t == tenant_id_of name)) = true)
  ∧ ((tr.any fun e => is_save e.call) =
      ((tr.all fun e => is_save e.call || e.err.isNone) &&
       (tr.any fun e => is_policy_call e.call && e.err.isNone)))
  ∧ saves_are_last tr = true
  ∧ (∀ e ∈ tr, ∀ exc, e.err = some exc → out = .raised exc)
  ∧ (out = .success →
      grants_in tr = expected_grants_opt s env users
      ∧ user_lookups_in tr = expected_lookups_opt users)

/-- The bundle holds at any raised leaf whose trace contains no persistence
write and no access-policy call, provided every raised entry carries the
raised exception. -/
theorem TrySpec_raised (s : Settings) (env : Env) (name : String)
    (users : Option (List ReqUser)) (e : Exc) (tr : List TraceEntry)
    (hsave : ∀ a ∈ tr, is_save a.call = false)
    (hpol : ∀ a ∈ tr, is_policy_call a.call = false)
    (herr : ∀ a ∈ tr, ∀ exc, a.err = some exc → exc = e)
    (hids : ∀ a ∈ tr,
      ((tenant_ids_of a.call).all (fun t => t == tenant_id_of name)) = true) :
    TrySpec s env name users (.raised e) tr := by
  refine ⟨hids, ?_, saves_are_last_of_no_save hsave, ?_, ?_⟩
  · have h1 : (tr.any fun a => is_save a.call) = false :=
      any_eq_false_of_forall hsave
    have h2 : (tr.any fun a => is_policy_call a.call && a.err.isNone) = false :=
      any_eq_false_of_forall (fun a ha => by simp [hpol a ha])
    simp [h1, h2]
  · intro a ha exc hx
    rw [herr a ha exc hx]
  · intro h
    simp at h

/-- The bundle holds for the policy-and-save tail of the workflow whenever
the prefix trace satisfies it with every call succeeded. -/
theorem create_post_users_spec (s : Settings) (env : Env) (user_info : UserInfo)
    (name : String) (description : String) (org_id : String)
    (users : Option (List ReqUser)) (tr : List TraceEntry)
    (hsave : ∀ a ∈ tr, is_save a.call = false)
    (hpol : ∀ a ∈ tr, is_policy_call a.call = false)
    (herr : ∀ a ∈ tr, a.err = none)
    (hids : ∀ a ∈ tr,
      ((tenant_ids_of a.call).all (fun t => t == tenant_id_of name)) = true)
    (hgr : grants_in tr = expected_grants_opt s env users)
    (hlk : user_lookups_in tr = expected_lookups_opt users) :
    TrySpec s env name users
      (create_post_users s env user_info name description
        (tenant_id_of name) org_id tr).1
      (create_post_users s env user_info name description
        (tenant_id_of name) org_id tr).2 := by
  have hanysave : (tr.any fun a => is_save a.call) = false :=
    any_eq_false_of_forall hsave
  have hanypol : (tr.any fun a => is_policy_call a.call && a.err.isNone) = false :=
    any_eq_false_of_forall (fun a ha => by simp [hpol a ha])
  have hall : (tr.all fun a => is_save a.call || a.err.isNone) = true :=
    all_eq_true_of_forall (fun a ha => by simp [herr a ha])
  cases hp : env.add_sub_url_setting_app_id s.BROKER_APP_ID
      [_build_policy "GET" (tenant_id_of name) (org_id ++ "." ++ s.BROKER_CONSUMER_ROLE),
       _build_policy "any" (tenant_id_of name) (org_id ++ "." ++ s.BROKER_ADMIN_ROLE)] with
  | error e =>
    have hred : create_post_users s env user_info name description
        (tenant_id_of name) org_id tr =
        (.raised e, tr ++ [⟨.add_sub_url_setting_app_id s.BROKER_APP_ID
          [_build_policy "GET" (tenant_id_of name) (org_id ++ "." ++ s.BROKER_CONSUMER_ROLE),
           _build_policy "any" (tenant_id_of name) (org_id ++ "." ++ s.BROKER_ADMIN_ROLE)],
          some e⟩]) := by
      simp [create_post_users, _create_access_policies, hp, errOf]
    rw [hred]
    refine ⟨?_, ?_, ?_, ?_, ?_⟩
    · intro a ha
      rcases List.mem_append.mp ha with h1 | h2
      · exact hids a h1
      · simp only [List.mem_singleton] at h2
        subst h2
        simp [tenant_ids_of, _build_policy]
    · simp [List.any_append, List.all_append, hanysave, hall,
        is_save, is_policy_call]
      intro x hx
      exact hsave x hx
    · apply saves_are_last_of_no_save
      intro a ha
      rcases List.mem_append.mp ha with h1 | h2
      · exact hsave a h1
      · simp only [List.mem_singleton] at h2
        subst h2
        simp [is_save]
    · intro a ha exc hx
      rcases List.mem_append.mp ha with h1 | h2
      · exact absurd hx (by simp [herr a h1])
      · simp only [List.mem_singleton] at h2
        subst h2
        simp only [Option.some.injEq] at hx
        rw [hx]
    · intro h
      simp at h
  | ok v =>
    cases hs : env.save_tenant (tenant_id_of name) name description
        user_info.id org_id with
    | error e =>
      have hred : create_post_users s env user_info name description
          (tenant_id_of name) org_id tr =
          (.raised e, tr ++ [⟨.add_sub_url_setting_app_id s.BROKER_APP_ID
            [_build_policy "GET" (tenant_id_of name) (org_id ++ "." ++ s.BROKER_CONSUMER_ROLE),
             _build_policy "any" (tenant_id_of name) (org_id ++ "." ++ s.BROKER_ADMIN_ROLE)],
            none⟩,
            ⟨.save_tenant (tenant_id_of name) name description user_info.id org_id,
            some e⟩]) := by
        simp [create_post_users, _create_access_policies, hp, hs, errOf]
      rw [hred]
      refine ⟨?_, ?_, ?_, ?_, ?_⟩
      · intro a ha
        rcases List.mem_append.mp ha with h1 | h2
        · exact hids a h1
        · rcases List.mem_cons.mp h2 with h3 | h4
          · subst h3
            simp [tenant_ids_of, _build_policy]
          · simp only [List.mem_singleton] at h4
            subst h4
            simp [tenant_ids_of]
      · simp [List.any_append, List.all_append, hanysave, hall,
          is_save, is_policy_call]
        intro x hx
        simp [herr x hx]
      · have hsplit : tr ++ [(⟨.add_sub_url_setting_app_id s.BROKER_APP_ID
            [_build_policy "GET" (tenant_id_of name) (org_id ++ "." ++ s.BROKER_CONSUMER_ROLE),
             _build_policy "any" (tenant_id_of name) (org_id ++ "." ++ s.BROKER_ADMIN_ROLE)],
            none⟩ : TraceEntry),
            ⟨.save_tenant (tenant_id_of name) name description user_info.id org_id,
            some e⟩] =
            (tr ++ [⟨.add_sub_url_setting_app_id s.BROKER_APP_ID
              [_build_policy "GET" (tenant_id_of name) (org_id ++ "." ++ s.BROKER_CONSUMER_ROLE),
               _build_policy "any" (tenant_id_of name) (org_id ++ "." ++ s.BROKER_ADMIN_ROLE)],
              none⟩]) ++
              [⟨.save_tenant (tenant_id_of name) name description user_info.id org_id,
              some e⟩] := by
          simp
        rw [hsplit]
        apply saves_are_last_append_last
        intro a ha
        rcases List.mem_append.mp ha with h1 | h2
        · exact hsave a h1
        · simp only [List.mem_singleton] at h2
          subst h2
          simp [is_save]
      · intro a ha exc hx
        rcases List.mem_append.mp ha with h1 | h2
        · exact absurd hx (by simp [herr a h1])
        · rcases List.mem_cons.mp h2 with h3 | h4
          · exfalso
            rw [h3] at hx
            simp at hx
          · simp only [List.mem_singleton] at h4
            subst h4
            simp only [Option.some.injEq] at hx
            rw [hx]
      · intro h
        simp at h
    | ok w =>
      have hred : create_post_users s env user_info name description
          (tenant_id_of name) org_id tr =
          (.success, tr ++ [⟨.add_sub_url_setting_app_id s.BROKER_APP_ID
            [_build_policy "GET" (tenant_id_of name) (org_id ++ "." ++ s.BROKER_CONSUMER_ROLE),
             _build_policy "any" (tenant_id_of name) (org_id ++ "." ++ s.BROKER_ADMIN_ROLE)],
            none⟩,
            ⟨.save_tenant (tenant_id_of name) name description user_info.id org_id,
            none⟩]) := by
        simp [create_post_users, _create_access_policies, hp, hs, errOf]
      rw [hred]
      refine ⟨?_, ?_, ?_, ?_, ?_⟩
      · intro a ha
        rcases List.mem_append.mp ha with h1 | h2
        · exact hids a h1
        · rcases List.mem_cons.mp h2 with h3 | h4
          · subst h3
            simp [tenant_ids_of, _build_policy]
          · simp only [List.mem_singleton] at h4
            subst h4
            simp [tenant_ids_of]
      · simp [List.any_append, List.all_append, hanysave, hall,
          is_save, is_policy_call]
        intro x hx
        simp [herr x hx]
      · have hsplit : tr ++ [(⟨.add_sub_url_setting_app_id s.BROKER_APP_ID
            [_build_policy "GET" (tenant_id_of name) (org_id ++ "." ++ s.BROKER_CONSUMER_ROLE),
             _build_policy "any" (tenant_id_of name) (org_id ++ "." ++ s.BROKER_ADMIN_ROLE)],
            none⟩ : TraceEntry),
            ⟨.save_tenant (tenant_id_of name) name description user_info.id org_id,
            none⟩] =
            (tr ++ [⟨.add_sub_url_setting_app_id s.BROKER_APP_ID
              [_build_policy "GET" (tenant_id_of name) (org_id ++ "." ++ s.BROKER_CONSUMER_ROLE),
               _build_policy "any" (tenant_id_of name) (org_id ++ "." ++ s.BROKER_ADMIN_ROLE)],
              none⟩]) ++
              [⟨.save_tenant (tenant_id_of name) name description user_info.id org_id,
              none⟩] := by
          simp
        rw [hsplit]
        apply saves_are_last_append_last
        intro a ha
        rcases List.mem_append.mp ha with h1 | h2
        · exact hsave a h1
        · simp only [List.mem_singleton] at h2
          subst h2
          simp [is_save]
      · intro a ha exc hx
        rcases List.mem_append.mp ha with h1 | h2
        · exact absurd hx (by simp [herr a h1])
        · rcases List.mem_cons.mp h2 with h3 | h4
          · exfalso
            rw [h3] at hx
            simp at hx
          · exfalso
            simp only [List.mem_singleton] at h4
            rw [h4] at hx
            simp at hx
      · intro _
        constructor
        · rw [grants_in_append, hgr]
          simp [grants_in]
        · rw [user_lookups_in_append, hlk]
          simp [user_lookups_in]

/-- The bundle holds for the user-loop stage followed by the tail, given a
fully successful prefix with no grants or lookups yet. -/
theorem create_users_step_spec (s : Settings) (env : Env) (user_info : UserInfo)
    (name : String) (description : String) (org_id : String)
    (users : Option (List ReqUser)) (tr : List TraceEntry)
    (hsave : ∀ a ∈ tr, is_save a.call = false)
    (hpol : ∀ a ∈ tr, is_policy_call a.call = false)
    (herr : ∀ a ∈ tr, a.err = none)
    (hids : ∀ a ∈ tr,
      ((tenant_ids_of a.call).all (fun t => t == tenant_id_of name)) = true)
    (hgr : grants_in tr = [])
    (hlk : user_lookups_in tr = []) :
    TrySpec s env name users
      (create_users_step s env user_info name description org_id users tr).1
      (create_users_step s env user_info name description org_id users tr).2 := by
  cases users with
  | none =>
    simp only [create_users_step]
    exact create_post_users_spec s env user_info name description org_id none tr
      hsave hpol herr hids (by simp [hgr, expected_grants_opt])
      (by simp [hlk, expected_lookups_opt])
  | some us =>
    obtain ⟨new, hga, hgb, hgc, hgd⟩ := grant_users_spec s env org_id us tr
    rcases hgu : grant_users s env org_id us tr with ⟨gres, tr6⟩
    rw [hgu] at hga hgc hgd
    simp only at hga hgc hgd
    subst hga
    cases gres with
    | error e =>
      have hred : create_users_step s env user_info name description org_id
          (some us) tr = (.raised e, tr ++ new) := by
        simp [create_users_step, hgu]
      rw [hred]
      apply TrySpec_raised
      · intro a ha
        rcases List.mem_append.mp ha with h1 | h2
        · exact hsave a h1
        · exact is_user_call_not_save (hgb a h2)
      · intro a ha
        rcases List.mem_append.mp ha with h1 | h2
        · exact hpol a h1
        · exact is_user_call_not_policy (hgb a h2)
      · intro a ha exc hx
        rcases List.mem_append.mp ha with h1 | h2
        · exact absurd hx (by simp [herr a h1])
        · have hee := hgc a h2 exc hx
          simp only [Except.error.injEq] at hee
          exact hee.symm
      · intro a ha
        rcases List.mem_append.mp ha with h1 | h2
        · exact hids a h1
        · simp [is_user_call_tenant_ids (hgb a h2)]
    | ok v =>
      cases v
      obtain ⟨he2, hg2, hl2⟩ := hgd rfl
      have hred : create_users_step s env user_info name description org_id
          (some us) tr =
          create_post_users s env user_info name description (tenant_id_of name)
            org_id (tr ++ new) := by
        simp [create_users_step, hgu]
      rw [hred]
      apply create_post_users_spec
      · intro a ha
        rcases List.mem_append.mp ha with h1 | h2
        · exact hsave a h1
        · exact is_user_call_not_save (hgb a h2)
      · intro a ha
        rcases List.mem_append.mp ha with h1 | h2
        · exact hpol a h1
        · exact is_user_call_not_policy (hgb a h2)
      · intro a ha
        rcases List.mem_append.mp ha with h1 | h2
        · exact herr a h1
        · exact he2 a h2
      · intro a ha
        rcases List.mem_append.mp ha with h1 | h2
        · exact hids a h1
        · simp [is_user_call_tenant_ids (hgb a h2)]
      · rw [grants_in_append, hgr, hg2]
        simp [expected_grants_opt]
      · rw [user_lookups_in_append, hlk, hl2]
        simp [expected_lookups_opt]

/-- The bundle holds for the whole try block of the creation workflow, over
every oracle behaviour. -/
theorem create_try_spec (s : Settings) (env : Env) (user_info : UserInfo)
    (name : String) (description : String) (users : Option (List ReqUser)) :
    TrySpec s env name users
      (create_try s env user_info name description users).1
      (create_try s env user_info name description users).2 := by
  cases hrt : env.get_tenant (tenant_id_of name) with
  | error e =>
    have hred : create_try s env user_info name description users =
        (.raised e, [⟨.get_tenant (tenant_id_of name), some e⟩]) := by
      simp [create_try, hrt, errOf]
    rw [hred]
    apply TrySpec_raised
    · simp [is_save]
    · simp [is_policy_call]
    · intro a ha exc hx
      fin_cases ha
      simp_all
    · simp [tenant_ids_of]
  | ok o =>
    cases o with
    | some t =>
      have hred : create_try s env user_info name description users =
          (.conflict (tenant_id_of name),
           [⟨.get_tenant (tenant_id_of name), none⟩]) := by
        simp [create_try, hrt, errOf]
      rw [hred]
      refine ⟨?_, ?_, ?_, ?_, ?_⟩
      · simp [tenant_ids_of]
      · simp [is_save, is_policy_call]
      · simp [saves_are_last, is_save]
      · intro a ha exc hx
        fin_cases ha
        simp_all
      · intro h
        simp at h
    | none =>
      cases hro : env.create_organization name description user_info.id with
      | error e =>
        have hred : create_try s env user_info name description users =
            (.raised e, [⟨.get_tenant (tenant_id_of name), none⟩,
              ⟨.create_organization name description user_info.id, some e⟩]) := by
          simp [create_try, hrt, hro, errOf]
        rw [hred]
        apply TrySpec_raised
        · simp [List.forall_mem_cons, is_save]
        · simp [List.forall_mem_cons, is_policy_call]
        · intro a ha exc hx
          fin_cases ha <;> simp_all
        · simp [List.forall_mem_cons, tenant_ids_of]
      | ok org_id =>
        cases hra : env.authorize_organization org_id s.BROKER_APP_ID
            s.BROKER_ADMIN_ROLE s.BROKER_CONSUMER_ROLE with
        | error e =>
          have hred : create_try s env user_info name description users =
              (.raised e, [⟨.get_tenant (tenant_id_of name), none⟩,
                ⟨.create_organization name description user_info.id, none⟩,
                ⟨.authorize_organization org_id s.BROKER_APP_ID
                  s.BROKER_ADMIN_ROLE s.BROKER_CONSUMER_ROLE, some e⟩]) := by
            simp [create_try, hrt, hro, hra, errOf]
          rw [hred]
          apply TrySpec_raised
          · simp [List.forall_mem_cons, is_save]
          · simp [List.forall_mem_cons, is_policy_call]
          · intro a ha exc hx
            fin_cases ha <;> simp_all
          · simp [List.forall_mem_cons, tenant_ids_of]
        | ok v1 =>
          cases hb1 : env.authorize_organization_role org_id s.BAE_APP_ID
              s.BAE_SELLER_ROLE "owner" with
          | error e =>
            have hred : create_try s env user_info name description users =
                (.raised e, [⟨.get_tenant (tenant_id_of name), none⟩,
                  ⟨.create_organization name description user_info.id, none⟩,
                  ⟨.authorize_organization org_id s.BROKER_APP_ID
                    s.BROKER_ADMIN_ROLE s.BROKER_CONSUMER_ROLE, none⟩,
                  ⟨.authorize_organization_role org_id s.BAE_APP_ID
                    s.BAE_SELLER_ROLE "owner", some e⟩]) := by
              simp [create_try, hrt, hro, hra, hb1, errOf]
            rw [hred]
            apply TrySpec_raised
            · simp [List.forall_mem_cons, is_save]
            · simp [List.forall_mem_cons, is_policy_call]
            · intro a ha exc hx
              fin_cases ha <;> simp_all
            · simp [List.forall_mem_cons, tenant_ids_of]
          | ok v2 =>
            cases hb2 : env.authorize_organization_role org_id s.BAE_APP_ID
                s.BAE_CUSTOMER_ROLE "owner" with
            | error e =>
              have hred : create_try s env user_info name description users =
                  (.raised e, [⟨.get_tenant (tenant_id_of name), none⟩,
                    ⟨.create_organization name description user_info.id, none⟩,
                    ⟨.authorize_organization org_id s.BROKER_APP_ID
                      s.BROKER_ADMIN_ROLE s.BROKER_CONSUMER_ROLE, none⟩,
                    ⟨.authorize_organization_role org_id s.BAE_APP_ID
                      s.BAE_SELLER_ROLE "owner", none⟩,
                    ⟨.authorize_organization_role org_id s.BAE_APP_ID
                      s.BAE_CUSTOMER_ROLE "owner", some e⟩]) := by
                simp [create_try, hrt, hro, hra, hb1, hb2, errOf]
              rw [hred]
              apply TrySpec_raised
              · simp [List.forall_mem_cons, is_save]
              · simp [List.forall_mem_cons, is_policy_call]
              · intro a ha exc hx
                fin_cases ha <;> simp_all
              · simp [List.forall_mem_cons, tenant_ids_of]
            | ok v3 =>
              cases hb3 : env.authorize_organization_role org_id s.BAE_APP_ID
                  s.BAE_ADMIN_ROLE "owner" with
              | error e =>
                have hred : create_try s env user_info name description users =
                    (.raised e, [⟨.get_tenant (tenant_id_of name), none⟩,
                      ⟨.create_organization name description user_info.id, none⟩,
                      ⟨.authorize_organization org_id s.BROKER_APP_ID
                        s.BROKER_ADMIN_ROLE s.BROKER_CONSUMER_ROLE, none⟩,
                      ⟨.authorize_organization_role org_id s.BAE_APP_ID
                        s.BAE_SELLER_ROLE "owner", none⟩,
                      ⟨.authorize_organization_role org_id s.BAE_APP_ID
                        s.BAE_CUSTOMER_ROLE "owner", none⟩,
                      ⟨.authorize_organization_role org_id s.BAE_APP_ID
                        s.BAE_ADMIN_ROLE "owner", some e⟩]) := by
                  simp [create_try, hrt, hro, hra, hb1, hb2, hb3, errOf]
                rw [hred]
                apply TrySpec_raised
                · simp [List.forall_mem_cons, is_save]
                · simp [List.forall_mem_cons, is_policy_call]
                · intro a ha exc hx
                  fin_cases ha <;> simp_all
                · simp [List.forall_mem_cons, tenant_ids_of]
              | ok v4 =>
                have hred : create_try s env user_info name description users =
                    create_users_step s env user_info name description org_id
                      users
                      [⟨.get_tenant (tenant_id_of name), none⟩,
                       ⟨.create_organization name description user_info.id, none⟩,
                       ⟨.authorize_organization org_id s.BROKER_APP_ID
                         s.BROKER_ADMIN_ROLE s.BROKER_CONSUMER_ROLE, none⟩,
                       ⟨.authorize_organization_role org_id s.BAE_APP_ID
                         s.BAE_SELLER_ROLE "owner", none⟩,
                       ⟨.authorize_organization_role org_id s.BAE_APP_ID
                         s.BAE_CUSTOMER_ROLE "owner", none⟩,
                       ⟨.authorize_organization_role org_id s.BAE_APP_ID
                         s.BAE_ADMIN_ROLE "owner", none⟩] := by
                  simp [create_try, hrt, hro, hra, hb1, hb2, hb3, errOf]
                rw [hred]
                apply create_users_step_spec
                · simp [List.forall_mem_cons, is_save]
                · simp [List.forall_mem_cons, is_policy_call]
                · simp [List.forall_mem_cons]
                · simp [List.forall_mem_cons, tenant_ids_of]
                · simp [grants_in]
                · simp [user_lookups_in]

/-- Once field validation passes, the handler response is the translation
of the try-block outcome through the except clauses, and the handler trace
is the try-block trace. -/
theorem create_unfold (s : Settings) (env : Env) (req : TenantRequest)
    (user_info : UserInfo) (name : String) (description : String)
    (hn : req.name = some name) (hd : req.description = some description)
    (hv : users_field_valid req.users = true) :
    create s env req user_info =
      (match (create_try s env user_info name description req.users).1 with
       | .conflict tid =>
         (⟨409, .jsonError ("The tenant " ++ tid ++ " is already registered")⟩ :
           HttpResponse)
       | .raised (.keyrock m) => ⟨400, .jsonError m⟩
       | .raised (.umbrella m) => ⟨400, .jsonError m⟩
       | .raised (.other _) => ⟨500, .jsonError "Unexpected error creating tenant"⟩
       | .success => ⟨201, .empty⟩,
       (create_try s env user_info name description req.users).2) := by
  rcases hq : create_try s env user_info name description req.users with ⟨out, tr⟩
  cases out with
  | conflict tid => simp [create, hn, hd, hv, hq]
  | success => simp [create, hn, hd, hv, hq]
  | raised e => cases e <;> simp [create, hn, hd, hv, hq]

/-- C1: the creation workflow performs the persistence write `save_tenant`
exactly when every earlier step - the duplicate check, the organization
creation, the role authorizations, the user role grants - completed
without raising and the gateway call submitting both access policies
completed, and every persistence write is the last entry of the trace, so
a raised failure in an earlier step leaves the store without the new
record. -/
theorem create_saves_record_iff_upstream_steps_ok (s : Settings) (env : Env)
    (req : TenantRequest) (user_info : UserInfo) :
    (((create s env req user_info).2.any fun e => is_save e.call) =
      (((create s env req user_info).2.all fun e =>
          is_save e.call || e.err.isNone) &&
       ((create s env req user_info).2.any fun e =>
          is_policy_call e.call && e.err.isNone)))
    ∧ saves_are_last (create s env req user_info).2 = true := by
  cases hn : req.name with
  | none => simp [create, hn, saves_are_last]
  | some name =>
    cases hd : req.description with
    | none => simp [create, hn, hd, saves_are_last]
    | some description =>
      cases hv : users_field_valid req.users with
      | false => simp [create, hn, hd, hv, saves_are_last]
      | true =>
        obtain ⟨_, h2, h3, _, _⟩ :=
          create_try_spec s env user_info name description req.users
        have htr : (create s env req user_info).2 =
            (create_try s env user_info name description req.users).2 := by
          rw [create_unfold s env req user_info name description hn hd hv]
        rw [htr]
        exact ⟨h2, h3⟩

/-- C2: whenever a name was sent, every tenant identifier referenced by an
external call of the creation workflow - the id of the duplicate check,
the Fiware-Service header values of both submitted access policies, and
the id of the persisted record - equals the name lower-cased with every
space replaced by an underscore. -/
theorem create_uses_normalized_tenant_id (s : Settings) (env : Env)
    (req : TenantRequest) (user_info : UserInfo) (name : String)
    (h : req.name = some name) :
    ((create s env req user_info).2.all fun e =>
      (tenant_ids_of e.call).all
        (fun t => t == tenant_id_of name)) = true := by
  cases hd : req.description with
  | none => simp [create, h, hd]
  | some description =>
    cases hv : users_field_valid req.users with
    | false => simp [create, h, hd, hv]
    | true =>
      obtain ⟨h1, _, _, _, _⟩ :=
        create_try_spec s env user_info name description req.users
      have htr : (create s env req user_info).2 =
          (create_try s env user_info name description req.users).2 := by
        rw [create_unfold s env req user_info name description h hd hv]
      rw [htr]
      exact all_eq_true_of_forall h1

/-- Witness for C2: the concrete request with name Acme Corp references
only the id acme_corp in its workflow calls. -/
theorem create_uses_normalized_tenant_id_witness :
    req0.name = some "Acme Corp" ∧
    ((create s0 envOk req0 u0).2.all fun e =>
      (tenant_ids_of e.call).all
        (fun t => t == tenant_id_of "Acme Corp")) = true :=
  ⟨rfl, create_uses_normalized_tenant_id s0 envOk req0 u0 "Acme Corp" rfl⟩

/-- C3: a valid creation request whose name normalizes to an already
registered tenant id gets response 409, and the only external call
performed is the duplicate-check store read: no identity-provider call, no
gateway-policy call, and no store write happens. -/
theorem create_duplicate_conflict_no_side_effects (s : Settings) (env : Env)
    (req : TenantRequest) (user_info : UserInfo) (name : String)
    (description : String) (t : TenantRecord)
    (hn : req.name = some name) (hd : req.description = some description)
    (hv : users_field_valid req.users = true)
    (hdup : env.get_tenant (tenant_id_of name) = .ok (some t)) :
    create s env req user_info =
      (⟨409, .jsonError
        ("The tenant " ++ tenant_id_of name ++ " is already registered")⟩,
       [⟨.get_tenant (tenant_id_of name), none⟩]) := by
  rw [create_unfold s env req user_info name description hn hd hv]
  have hq : create_try s env user_info name description req.users =
      (.conflict (tenant_id_of name),
       [⟨.get_tenant (tenant_id_of name), none⟩]) := by
    simp [create_try, hdup, errOf]
  rw [hq]

/-- Witness for C3: creating Acme Corp against a store already holding
acme_corp yields 409 with the single read in the trace. -/
theorem create_duplicate_conflict_no_side_effects_witness :
    req0.name = some "Acme Corp" ∧ req0.description = some "d" ∧
    users_field_valid req0.users = true ∧
    envDup.get_tenant (tenant_id_of "Acme Corp") = .ok (some recA) ∧
    create s0 envDup req0 u0 =
      (⟨409, .jsonError
        ("The tenant " ++ tenant_id_of "Acme Corp" ++ " is already registered")⟩,
       [⟨.get_tenant (tenant_id_of "Acme Corp"), none⟩]) :=
  ⟨rfl, rfl, rfl, by decide,
    create_duplicate_conflict_no_side_effects s0 envDup req0 u0
      "Acme Corp" "d" recA rfl rfl rfl (by decide)⟩

/-- C4: a creation request missing the name key or the description key gets
response 422 and the workflow performs no external call at all. -/
theorem create_missing_field_unprocessable (s : Settings) (env : Env)
    (req : TenantRequest) (user_info : UserInfo)
    (h : req.name = none ∨ req.description = none) :
    (create s env req user_info).1.status = 422 ∧
    (create s env req user_info).2 = [] := by
  rcases h with h | h
  · simp [create, h]
  · cases hn : req.name with
    | none => simp [create, hn]
    | some name => simp [create, hn, h]

/-- A creation request body without the name key. -/
def reqNoName : TenantRequest := ⟨none, some "d", none⟩

/-- Witness for C4: the concrete body without a name yields 422 and an
empty trace. -/
theorem create_missing_field_unprocessable_witness :
    (reqNoName.name = none ∨ reqNoName.description = none) ∧
    (create s0 envOk reqNoName u0).1.status = 422 ∧
    (create s0 envOk reqNoName u0).2 = [] :=
  ⟨Or.inl rfl,
    create_missing_field_unprocessable s0 envOk reqNoName u0 (Or.inl rfl)⟩

/-- C5: every exception a collaborator raises inside the creation workflow
determines the response through the except clauses: a KeyrockError or an
UmbrellaError with message m yields 400 with body m, and any other
exception yields 500 with the fixed message. -/
theorem create_exception_taxonomy (s : Settings) (env : Env)
    (req : TenantRequest) (user_info : UserInfo) (entry : TraceEntry)
    (exc : Exc) (hmem : entry ∈ (create s env req user_info).2)
    (herr : entry.err = some exc) :
    (create s env req user_info).1 =
      (match exc with
       | .keyrock m => (⟨400, .jsonError m⟩ : HttpResponse)
       | .umbrella m => ⟨400, .jsonError m⟩
       | .other _ => ⟨500, .jsonError "Unexpected error creating tenant"⟩) := by
  cases hn : req.name with
  | none => simp [create, hn] at hmem
  | some name =>
    cases hd : req.description with
    | none => simp [create, hn, hd] at hmem
    | some description =>
      cases hv : users_field_valid req.users with
      | false => simp [create, hn, hd, hv] at hmem
      | true =>
        obtain ⟨_, _, _, h4, _⟩ :=
          create_try_spec s env user_info name description req.users
        have htr : (create s env req user_info).2 =
            (create_try s env user_info name description req.users).2 := by
          rw [create_unfold s env req user_info name description hn hd hv]
        rw [htr] at hmem
        have hout := h4 entry hmem exc herr
        rw [create_unfold s env req user_info name description hn hd hv, hout]
        cases exc <;> rfl

/-- Witness for C5: an organization creation raising KeyrockError boom
yields 400 with body boom. -/
theorem create_exception_taxonomy_witness :
    (⟨.create_organization "Acme Corp" "d" "owner1",
      some (.keyrock "boom")⟩ : TraceEntry) ∈
        (create s0 envKeyrockFail req0 u0).2 ∧
    (⟨.create_organization "Acme Corp" "d" "owner1",
      some (.keyrock "boom")⟩ : TraceEntry).err = some (.keyrock "boom") ∧
    (create s0 envKeyrockFail req0 u0).1 = ⟨400, .jsonError "boom"⟩ :=
  ⟨by decide, rfl,
    create_exception_taxonomy s0 envKeyrockFail req0 u0
      ⟨.create_organization "Acme Corp" "d" "owner1", some (.keyrock "boom")⟩
      (.keyrock "boom") (by decide) rfl⟩

/-- A creation request listing one user whose roles contain neither the
consumer role nor the admin role. -/
def reqRoleless : TenantRequest :=
  ⟨some "Acme Corp", some "d", some [⟨some "dave", some []⟩]⟩

/-- Counterexample to C6 as stated: the workflow completes successfully
with 201, the request lists one user, yet no organization role grant at
all is performed, because the listed roles contain neither the consumer
role nor the admin role - so not every listed user receives a grant. -/
theorem create_roleless_user_gets_no_grant_cex :
    (create s0 envOk reqRoleless u0).1.status = 201 ∧
    reqRoleless.users = some [⟨some "dave", some []⟩] ∧
    grants_in (create s0 envOk reqRoleless u0).2 = [] := by
  refine ⟨by decide, rfl, by decide⟩

/-- C6 amended: when a creation succeeds with 201, the organization role
grants performed are exactly one per listed user whose roles contain the
admin role or the consumer role - the owner role when the admin role was
requested, otherwise the member role - while a listed user requesting
neither role receives no grant. -/
theorem create_grants_follow_requested_roles (s : Settings) (env : Env)
    (req : TenantRequest) (user_info : UserInfo) (name : String)
    (description : String) (users : List ReqUser)
    (hn : req.name = some name) (hd : req.description = some description)
    (hu : req.users = some users)
    (hok : (create s env req user_info).1.status = 201) :
    grants_in (create s env req user_info).2 =
      users.flatMap (expected_grants s env) := by
  cases hv : users_field_valid req.users with
  | false =>
    exfalso
    simp [create, hn, hd, hv] at hok
  | true =>
    obtain ⟨_, _, _, _, h5⟩ :=
      create_try_spec s env user_info name description req.users
    have htr := create_unfold s env req user_info name description hn hd hv
    rcases hq : (create_try s env user_info name description req.users).1 with
      tid | _ | e
    · exfalso
      rw [htr, hq] at hok
      simp at hok
    · have hg := (h5 hq).1
      rw [htr]
      show grants_in (create_try s env user_info name description req.users).2 =
        users.flatMap (expected_grants s env)
      rw [hg, hu]
      simp [expected_grants_opt]
    · exfalso
      rw [htr, hq] at hok
      cases e <;> simp at hok

/-- A creation request listing one consumer-only user and one admin
user. -/
def reqUsersMix : TenantRequest :=
  ⟨some "Acme Corp", some "d",
   some [⟨some "bob", some ["consumer-role"]⟩,
         ⟨some "carol", some ["admin-role"]⟩]⟩

/-- Witness for C6 amended: the consumer-only user gets the member grant
and the admin user gets the owner grant, one grant each. -/
theorem create_grants_follow_requested_roles_witness :
    reqUsersMix.name = some "Acme Corp" ∧
    reqUsersMix.description = some "d" ∧
    reqUsersMix.users = some [⟨some "bob", some ["consumer-role"]⟩,
      ⟨some "carol", some ["admin-role"]⟩] ∧
    (create s0 envOk reqUsersMix u0).1.status = 201 ∧
    grants_in (create s0 envOk reqUsersMix u0).2 =
      [⟨some "bob", some ["consumer-role"]⟩,
       ⟨some "carol", some ["admin-role"]⟩].flatMap (expected_grants s0 envOk) :=
  ⟨rfl, rfl, rfl, by decide,
    create_grants_follow_requested_roles s0 envOk reqUsersMix u0
      "Acme Corp" "d" _ rfl rfl rfl (by decide)⟩

/-- C7: for GET /tenant/{id}: an absent record yields 404 with only the
store read performed, for every caller identity - so the existence check
comes before the ownership check; a record owned by another user yields
403; a record owned by the caller yields 200 carrying the record enriched
with the organization members and their mapped roles. -/
theorem get_tenant_spec_cases (s : Settings) (env : Env) (user_info : UserInfo)
    (tenant_id : String) :
    (env.get_tenant tenant_id = .ok none →
      get_tenant s env user_info tenant_id =
        (⟨404, .jsonError ("Tenant " ++ tenant_id ++ " does not exist")⟩,
         [⟨.get_tenant tenant_id, none⟩]))
    ∧ (∀ t, env.get_tenant tenant_id = .ok (some t) →
        t.user_id ≠ user_info.id →
        get_tenant s env user_info tenant_id =
          (⟨403, .jsonError "You are not authorized to retrieve tenant info"⟩,
           [⟨.get_tenant tenant_id, none⟩]))
    ∧ (∀ t members, env.get_tenant tenant_id = .ok (some t) →
        t.user_id = user_info.id →
        env.get_organization_members t.tenant_organization = .ok members →
        get_tenant s env user_info tenant_id =
          (⟨200, .jsonTenant ⟨t, enrich_members s members⟩⟩,
           [⟨.get_tenant tenant_id, none⟩,
            ⟨.get_organization_members t.tenant_organization, none⟩])) := by
  refine ⟨?_, ?_, ?_⟩
  · intro h
    simp [get_tenant, h, errOf]
  · intro t h hne
    simp [get_tenant, h, errOf, hne]
  · intro t members h heq hm
    simp [get_tenant, h, errOf, heq, hm]

/-- Witness for C7 on a concrete store: unknown id gives 404, a record of
another owner gives 403, an owned record gives 200 enriched. -/
theorem get_tenant_spec_cases_witness :
    get_tenant s0 envStore u0 "nope" =
      (⟨404, .jsonError ("Tenant " ++ "nope" ++ " does not exist")⟩,
       [⟨.get_tenant "nope", none⟩]) ∧
    get_tenant s0 envStore u0 "beta" =
      (⟨403, .jsonError "You are not authorized to retrieve tenant info"⟩,
       [⟨.get_tenant "beta", none⟩]) ∧
    get_tenant s0 envStore u0 "acme_corp" =
      (⟨200, .jsonTenant ⟨recA, enrich_members s0 [⟨"u1", "alice", "owner"⟩]⟩⟩,
       [⟨.get_tenant "acme_corp", none⟩,
        ⟨.get_organization_members "org1", none⟩]) :=
  ⟨(get_tenant_spec_cases s0 envStore u0 "nope").1 (by decide),
   (get_tenant_spec_cases s0 envStore u0 "beta").2.1 recB (by decide) (by decide),
   (get_tenant_spec_cases s0 envStore u0 "acme_corp").2.2 recA
     [⟨"u1", "alice", "owner"⟩] (by decide) rfl rfl⟩

/-- C8: the role mapping is a pure function of the member record: provider
role owner maps to the list holding both the consumer role and the admin
role, and any other provider role maps to the list holding only the
consumer role. -/
theorem map_roles_owner_admin_spec (s : Settings) (member : Member) :
    _map_roles s member =
      if member.role = "owner"
      then [s.BROKER_CONSUMER_ROLE, s.BROKER_ADMIN_ROLE]
      else [s.BROKER_CONSUMER_ROLE] := by
  by_cases h : member.role = "owner" <;> simp [_map_roles, h]

/-- Under a members oracle that always succeeds, the enrichment loop of the
listing handler succeeds and enriches every record in order. -/
theorem enrich_tenants_total (s : Settings) (env : Env)
    (mems : String → List Member)
    (h : ∀ org, env.get_organization_members org = .ok (mems org)) :
    ∀ (ts : List TenantRecord) (tr : List TraceEntry),
    enrich_tenants s env ts tr =
      (.ok (ts.map (fun t => ⟨t, enrich_members s (mems t.tenant_organization)⟩)),
       tr ++ ts.map (fun t =>
         (⟨.get_organization_members t.tenant_organization, none⟩ : TraceEntry))) := by
  intro ts
  induction ts with
  | nil => intro tr; simp [enrich_tenants]
  | cons t rest ih =>
    intro tr
    simp [enrich_tenants, h t.tenant_organization, errOf, ih]

/-- C9: with the persistence listing modelled from the spec as the owner
filter over the store, a successful GET /tenant returns 200 with exactly
the enrichment of the caller-owned records: every returned tenant is a
stored record whose owner is the caller, and every stored record owned by
the caller appears in the response. -/
theorem get_returns_exactly_caller_tenants (s : Settings) (env : Env)
    (user_info : UserInfo) (store : List TenantRecord)
    (mems : String → List Member)
    (h1 : env.read_tenants user_info.id =
      .ok (read_tenants_model store user_info.id))
    (h2 : ∀ org, env.get_organization_members org = .ok (mems org)) :
    (get s env user_info).1 =
      ⟨200, .jsonTenants ((read_tenants_model store user_info.id).map
        (fun t => ⟨t, enrich_members s (mems t.tenant_organization)⟩))⟩
    ∧ (∀ ts, (get s env user_info).1.body = .jsonTenants ts →
        (∀ et ∈ ts, et.record.user_id = user_info.id)
        ∧ (∀ r ∈ store, r.user_id = user_info.id →
            ∃ et ∈ ts, et.record = r)) := by
  have hmain : (get s env user_info).1 =
      ⟨200, .jsonTenants ((read_tenants_model store user_info.id).map
        (fun t => ⟨t, enrich_members s (mems t.tenant_organization)⟩))⟩ := by
    simp [get, h1, errOf, enrich_tenants_total s env mems h2]
  refine ⟨hmain, ?_⟩
  intro ts hts
  rw [hmain] at hts
  simp only [Body.jsonTenants.injEq] at hts
  subst hts
  constructor
  · intro et het
    simp only [read_tenants_model, List.mem_map, List.mem_filter] at het
    obtain ⟨r, ⟨hrs, hreq⟩, rfl⟩ := het
    simpa using hreq
  · intro r hrs hrid
    refine ⟨⟨r, enrich_members s (mems r.tenant_organization)⟩, ?_, rfl⟩
    simp only [read_tenants_model]
    exact List.mem_map.mpr ⟨r, List.mem_filter.mpr ⟨hrs, by simp [hrid]⟩, rfl⟩

/-- Witness for C9: a store with one record owned by the caller and one
owned by someone else yields 200 with exactly the caller-owned record,
enriched. -/
theorem get_returns_exactly_caller_tenants_witness :
    envStore.read_tenants u0.id =
      .ok (read_tenants_model [recA, recB] u0.id) ∧
    (get s0 envStore u0).1 =
      ⟨200, .jsonTenants ((read_tenants_model [recA, recB] u0.id).map
        (fun t => ⟨t, enrich_members s0 [⟨"u1", "alice", "owner"⟩]⟩))⟩ :=
  ⟨rfl, (get_returns_exactly_caller_tenants s0 envStore u0 [recA, recB]
    (fun _ => [⟨"u1", "alice", "owner"⟩]) rfl (fun _ => rfl)).1⟩

/-- C10: when a creation succeeds with 201, every listed user name is
resolved through get_user_id in order, while the grants performed are
exactly the prescribed ones: a listed user whose roles contain neither the
consumer role nor the admin role is resolved but granted nothing, and one
whose roles contain both receives exactly the single grant owner. -/
theorem create_grant_edge_cases (s : Settings) (env : Env)
    (req : TenantRequest) (user_info : UserInfo) (name : String)
    (description : String) (users : List ReqUser)
    (hn : req.name = some name) (hd : req.description = some description)
    (hu : req.users = some users)
    (hok : (create s env req user_info).1.status = 201) :
    user_lookups_in (create s env req user_info).2 =
      users.filterMap (fun u => u.name) ∧
    grants_in (create s env req user_info).2 =
      users.flatMap (expected_grants s env) := by
  cases hv : users_field_valid req.users with
  | false =>
    exfalso
    simp [create, hn, hd, hv] at hok
  | true =>
    obtain ⟨_, _, _, _, h5⟩ :=
      create_try_spec s env user_info name description req.users
    have htr := create_unfold s env req user_info name description hn hd hv
    rcases hq : (create_try s env user_info name description req.users).1 with
      tid | _ | e
    · exfalso
      rw [htr, hq] at hok
      simp at hok
    · obtain ⟨hg, hl⟩ := h5 hq
      constructor
      · rw [htr]
        show user_lookups_in
            (create_try s env user_info name description req.users).2 =
          users.filterMap (fun u => u.name)
        rw [hl, hu]
        simp [expected_lookups_opt]
      · rw [htr]
        show grants_in
            (create_try s env user_info name description req.users).2 =
          users.flatMap (expected_grants s env)
        rw [hg, hu]
        simp [expected_grants_opt]
    · exfalso
      rw [htr, hq] at hok
      cases e <;> simp at hok

/-- A creation request listing one user with no recognized role and one
user with both roles. -/
def reqEdgeUsers : TenantRequest :=
  ⟨some "Acme Corp", some "d",
   some [⟨some "dave", some []⟩,
         ⟨some "erin", some ["consumer-role", "admin-role"]⟩]⟩

/-- Witness for C10: the role-less user is resolved but granted nothing,
the both-roles user is resolved and granted only owner. -/
theorem create_grant_edge_cases_witness :
    reqEdgeUsers.name = some "Acme Corp" ∧
    reqEdgeUsers.description = some "d" ∧
    reqEdgeUsers.users = some [⟨some "dave", some []⟩,
      ⟨some "erin", some ["consumer-role", "admin-role"]⟩] ∧
    (create s0 envOk reqEdgeUsers u0).1.status = 201 ∧
    user_lookups_in (create s0 envOk reqEdgeUsers u0).2 =
      ([⟨some "dave", some []⟩,
        ⟨some "erin", some ["consumer-role", "admin-role"]⟩] :
          List ReqUser).filterMap (fun u => u.name) ∧
    grants_in (create s0 envOk reqEdgeUsers u0).2 =
      ([⟨some "dave", some []⟩,
        ⟨some "erin", some ["consumer-role", "admin-role"]⟩] :
          List ReqUser).flatMap (expected_grants s0 envOk) := by
  have h := create_grant_edge_cases s0 envOk reqEdgeUsers u0
    "Acme Corp" "d" _ rfl rfl rfl (by decide)
  exact ⟨rfl, rfl, rfl, by decide, h.1, h.2⟩

end Opplafy
